import Mathlib

/-
Verification of the destination/address model of `src/rpc/util.cpp`:
destination description, blinding-key resolution, confidential address
description, multisig redeem-script construction, RPC argument help
rendering, and per-asset balance presentation.

External collaborators (address codec, elliptic-curve key validator,
script encoder, JSON representation, asset registry) are not part of the
source file; they are modelled from the specification, each marked with a
`Modelled from the spec:` doc comment.
-/

set_option maxHeartbeats 1000000

/-- Modelled from the spec: a public key as handled by the external key
validator (`CPubKey`); represented by its byte sequence. The
default-constructed key `CPubKey()` has an empty byte sequence. -/
structure CPubKey where
  bytes : List Nat
deriving DecidableEq, Repr

/-- The default-constructed (canonical empty/invalid) public key `CPubKey()`. -/
def emptyPubKey : CPubKey := CPubKey.mk []

/-- Modelled from the spec: the external key validator `isFullyValid`. A key
is modelled as fully valid exactly when it is a 33-byte compressed encoding
with lead byte 2 or 3; the canonical empty key is never fully valid. -/
def CPubKey.IsFullyValid (k : CPubKey) : Bool :=
  k.bytes.length == 33 && (k.bytes.head? == some 2 || k.bytes.head? == some 3)

/-- The closed variant set `CTxDestination`: `CNoDestination`, `PKHash`,
`ScriptHash`, `WitnessV0KeyHash`, `WitnessV0ScriptHash`, `WitnessUnknown`
(version, program bytes, and — as the source accesses `id.blinding_pubkey`
on it — a blinding public key field), and `NullData`. The four hash
variants carry their hash bytes and a `blinding_pubkey` field. -/
inductive Destination : Type where
  | noDest : Destination
  | pkHash (hash : List Nat) (blinding_pubkey : CPubKey) : Destination
  | scriptHash (hash : List Nat) (blinding_pubkey : CPubKey) : Destination
  | witnessV0KeyHash (hash : List Nat) (blinding_pubkey : CPubKey) : Destination
  | witnessV0ScriptHash (hash : List Nat) (blinding_pubkey : CPubKey) : Destination
  | witnessUnknown (version : Nat) (program : List Nat) (blinding_pubkey : CPubKey) : Destination
  | nullData : Destination
deriving DecidableEq, Repr

/-- Modelled from the spec: an address string produced by the external
address codec. Its text is opaque to this file; the codec is specified by
`decode(encode(d)) = d`, so the string is represented by the destination it
denotes. -/
structure AddressString where
  decoded : Destination
deriving DecidableEq, Repr

/-- Modelled from the spec: the external address codec `encode(Destination) -> string`. -/
def EncodeDestination (d : Destination) : AddressString := AddressString.mk d

/-- Modelled from the spec: the external address codec `decode(string) -> Destination`,
the inverse of `EncodeDestination`. -/
def DecodeDestination (s : AddressString) : Destination := s.decoded

/-- The JSON value representation (`UniValue`) restricted to the shapes this
file produces: null, objects as ordered key/value lists, strings, numbers,
booleans, and address strings (strings produced by the external codec, kept
as a separate constructor so that their decoding stays expressible). -/
inductive UniValue : Type where
  | vnull : UniValue
  | vobj (entries : List (String × UniValue)) : UniValue
  | vstr (s : String) : UniValue
  | vnum (n : Int) : UniValue
  | vbool (b : Bool) : UniValue
  | vaddr (a : AddressString) : UniValue
deriving Repr

/-- Lower-case hex digit of a value below 16, as produced by `HexStr`. -/
def hexDigitChar (n : Nat) : Char :=
  if n < 10 then Char.ofNat (48 + n) else Char.ofNat (87 + n)

/-- Two-digit lower-case hex rendering of one byte. -/
def byteToHex (b : Nat) : String :=
  String.mk [hexDigitChar (b / 16 % 16), hexDigitChar (b % 16)]

/-- Hex rendering of a byte sequence (`HexStr` from the source's helpers). -/
def HexStr (bs : List Nat) : String :=
  String.join (bs.map byteToHex)

/-- Embeds `BlindingPubkeyVisitor` / `GetDestinationBlindingKey`
(util.cpp lines 238-281): the stored `blinding_pubkey` for the four hash
variants and for `WitnessUnknown` (line 270), and `CPubKey()` for
`CNoDestination` and `NullData`. -/
def GetDestinationBlindingKey : Destination → CPubKey
  | Destination.noDest => emptyPubKey
  | Destination.pkHash _ bp => bp
  | Destination.scriptHash _ bp => bp
  | Destination.witnessV0KeyHash _ bp => bp
  | Destination.witnessV0ScriptHash _ bp => bp
  | Destination.witnessUnknown _ _ bp => bp
  | Destination.nullData => emptyPubKey

/-- Embeds `IsBlindDestination` (util.cpp lines 283-285). -/
def IsBlindDestination (dest : Destination) : Bool :=
  (GetDestinationBlindingKey dest).IsFullyValid

/-- The four variants whose `DescribeBlindAddressVisitor` case carries the
blinding-key logic (PKHash, ScriptHash, WitnessV0KeyHash, WitnessV0ScriptHash). -/
def blindingCapable : Destination → Bool
  | Destination.pkHash _ _ => true
  | Destination.scriptHash _ _ => true
  | Destination.witnessV0KeyHash _ _ => true
  | Destination.witnessV0ScriptHash _ _ => true
  | _ => false

/-- The per-case `unblinded.blinding_pubkey = CPubKey()` assignment of
`DescribeBlindAddressVisitor`, written as one transform: the same
destination with the blinding key field cleared. -/
def clearBlindingKey : Destination → Destination
  | Destination.pkHash h _ => Destination.pkHash h emptyPubKey
  | Destination.scriptHash h _ => Destination.scriptHash h emptyPubKey
  | Destination.witnessV0KeyHash h _ => Destination.witnessV0KeyHash h emptyPubKey
  | Destination.witnessV0ScriptHash h _ => Destination.witnessV0ScriptHash h emptyPubKey
  | d => d

/-- Embeds `DescribeAddressVisitor` / `DescribeAddress`
(util.cpp lines 74-141), one case per variant, fields in push order. -/
def DescribeAddress : Destination → UniValue
  | Destination.noDest => UniValue.vobj []
  | Destination.pkHash _ _ =>
      UniValue.vobj [("isscript", UniValue.vbool false), ("iswitness", UniValue.vbool false)]
  | Destination.scriptHash _ _ =>
      UniValue.vobj [("isscript", UniValue.vbool true), ("iswitness", UniValue.vbool false)]
  | Destination.witnessV0KeyHash h _ =>
      UniValue.vobj [("isscript", UniValue.vbool false), ("iswitness", UniValue.vbool true),
        ("witness_version", UniValue.vnum 0), ("witness_program", UniValue.vstr (HexStr h))]
  | Destination.witnessV0ScriptHash h _ =>
      UniValue.vobj [("isscript", UniValue.vbool true), ("iswitness", UniValue.vbool true),
        ("witness_version", UniValue.vnum 0), ("witness_program", UniValue.vstr (HexStr h))]
  | Destination.witnessUnknown v p _ =>
      UniValue.vobj [("iswitness", UniValue.vbool true),
        ("witness_version", UniValue.vnum (Int.ofNat v)), ("witness_program", UniValue.vstr (HexStr p))]
  | Destination.nullData =>
      UniValue.vobj [("isscript", UniValue.vbool false), ("iswitness", UniValue.vbool false)]

/-- Embeds `DescribeBlindAddressVisitor` (util.cpp lines 287-363): for each
blinding-capable variant, if `IsBlindDestination` holds, push the hex of the
blinding key and the encoding of the destination with the key cleared;
otherwise push an empty `confidential_key` and the unchanged encoding.
`CNoDestination` and `WitnessUnknown` give an empty object, `NullData` gives
`NullUniValue`. The wrapper `DescribeBlindAddress` (lines 365-370) copies the
visitor's object entries into its result. -/
def DescribeBlindAddress : Destination → UniValue
  | Destination.noDest => UniValue.vobj []
  | Destination.pkHash h bp =>
      if IsBlindDestination (Destination.pkHash h bp) then
        UniValue.vobj [("confidential_key", UniValue.vstr (HexStr bp.bytes)),
          ("unconfidential", UniValue.vaddr (EncodeDestination (Destination.pkHash h emptyPubKey)))]
      else
        UniValue.vobj [("confidential_key", UniValue.vstr ""),
          ("unconfidential", UniValue.vaddr (EncodeDestination (Destination.pkHash h bp)))]
  | Destination.scriptHash h bp =>
      if IsBlindDestination (Destination.scriptHash h bp) then
        UniValue.vobj [("confidential_key", UniValue.vstr (HexStr bp.bytes)),
          ("unconfidential", UniValue.vaddr (EncodeDestination (Destination.scriptHash h emptyPubKey)))]
      else
        UniValue.vobj [("confidential_key", UniValue.vstr ""),
          ("unconfidential", UniValue.vaddr (EncodeDestination (Destination.scriptHash h bp)))]
  | Destination.witnessV0KeyHash h bp =>
      if IsBlindDestination (Destination.witnessV0KeyHash h bp) then
        UniValue.vobj [("confidential_key", UniValue.vstr (HexStr bp.bytes)),
          ("unconfidential", UniValue.vaddr (EncodeDestination (Destination.witnessV0KeyHash h emptyPubKey)))]
      else
        UniValue.vobj [("confidential_key", UniValue.vstr ""),
          ("unconfidential", UniValue.vaddr (EncodeDestination (Destination.witnessV0KeyHash h bp)))]
  | Destination.witnessV0ScriptHash h bp =>
      if IsBlindDestination (Destination.witnessV0ScriptHash h bp) then
        UniValue.vobj [("confidential_key", UniValue.vstr (HexStr bp.bytes)),
          ("unconfidential", UniValue.vaddr (EncodeDestination (Destination.witnessV0ScriptHash h emptyPubKey)))]
      else
        UniValue.vobj [("confidential_key", UniValue.vstr ""),
          ("unconfidential", UniValue.vaddr (EncodeDestination (Destination.witnessV0ScriptHash h bp)))]
  | Destination.witnessUnknown _ _ _ => UniValue.vobj []
  | Destination.nullData => UniValue.vnull

/-- The error kinds raised by this file's operations: `RPC_INVALID_PARAMETER`,
`RPC_INVALID_ADDRESS_OR_KEY`, `RPC_INTERNAL_ERROR`. -/
inductive RpcErrorKind : Type where
  | invalidParameter : RpcErrorKind
  | invalidAddressOrKey : RpcErrorKind
  | internalError : RpcErrorKind
deriving DecidableEq, Repr

/-- A structured `(errorKind, message)` pair as thrown by `JSONRPCError`. -/
structure RpcError where
  kind : RpcErrorKind
  message : String
deriving DecidableEq, Repr

/-- Modelled from the spec: the external script-encoding collaborator's
constant `MAX_SCRIPT_ELEMENT_SIZE` (the consensus value 520 bytes). -/
def MAX_SCRIPT_ELEMENT_SIZE : Nat := 520

/-- Embeds `CreateMultisigRedeemscript` (util.cpp lines 52-72). The external
script encoder `GetScriptForMultisig` is a parameter (modelled from the
spec: `encodeMultisig(threshold, pubkeys) -> bytes`); `required` is the
C++ `int` argument, the key count is compared to it after an `int` cast. -/
def CreateMultisigRedeemscript (getScriptForMultisig : Int → List CPubKey → List Nat)
    (required : Int) (pubkeys : List CPubKey) : Except RpcError (List Nat) :=
  if required < 1 then
    Except.error (RpcError.mk RpcErrorKind.invalidParameter
      "a multisignature address must require at least one key to redeem")
  else if (pubkeys.length : Int) < required then
    Except.error (RpcError.mk RpcErrorKind.invalidParameter
      ("not enough keys supplied (got " ++ toString pubkeys.length ++
        " keys, but need at least " ++ toString required ++ " to redeem)"))
  else if pubkeys.length > 16 then
    Except.error (RpcError.mk RpcErrorKind.invalidParameter
      "Number of keys involved in the multisignature address creation > 16\nReduce the number")
  else
    let result := getScriptForMultisig required pubkeys
    if result.length > MAX_SCRIPT_ELEMENT_SIZE then
      Except.error (RpcError.mk RpcErrorKind.invalidParameter
        ("redeemScript exceeds size limit: " ++ toString result.length ++
          " > " ++ toString MAX_SCRIPT_ELEMENT_SIZE))
    else
      Except.ok result

/-- The `RPCArg::Type` tag set. -/
inductive RPCArgType : Type where
  | STR : RPCArgType
  | STR_HEX : RPCArgType
  | NUM : RPCArgType
  | AMOUNT : RPCArgType
  | BOOL : RPCArgType
  | ARR : RPCArgType
  | OBJ : RPCArgType
  | OBJ_USER_KEYS : RPCArgType
deriving DecidableEq, Repr

/-- The recursive `RPCArg` node: name, type tag, optional flag, and inner
arguments (used by ARR/OBJ/OBJ_USER_KEYS). -/
inductive RPCArg : Type where
  | mk (m_name : String) (m_type : RPCArgType) (m_optional : Bool) (m_inner : List RPCArg) : RPCArg
deriving Repr

/-- The `m_optional` field of an `RPCArg`. -/
def argOptional : RPCArg → Bool
  | RPCArg.mk _ _ o _ => o

/-- The two developer-contract aborts of the render functions: the
`assert(!is_optional)` ordering check in `RPCHelpMan::ToString`, and the
`assert(false)` for OBJ/OBJ_USER_KEYS entries in `RPCArg::ToStringObj`. -/
inductive RpcAbort : Type where
  | orderingViolation : RpcAbort
  | unsupportedObjEntry : RpcAbort
deriving DecidableEq, Repr

mutual

/-- Embeds `RPCArg::ToString` (util.cpp lines 197-233): quoted name for
STR/STR_HEX, bare name for NUM/AMOUNT/BOOL, bracketed joined children for
ARR/OBJ/OBJ_USER_KEYS. `none` marks the `assert(false)` abort reached
through an OBJ-typed object entry. -/
def rpcArgToString : RPCArg → Option String
  | RPCArg.mk name ty _ inner =>
    match ty with
    | RPCArgType.STR_HEX => some ("\"" ++ name ++ "\"")
    | RPCArgType.STR => some ("\"" ++ name ++ "\"")
    | RPCArgType.NUM => some name
    | RPCArgType.AMOUNT => some name
    | RPCArgType.BOOL => some name
    | RPCArgType.OBJ => do
        let res ← rpcArgObjEntries inner
        some ("\x7b" ++ res ++ "\x7d")
    | RPCArgType.OBJ_USER_KEYS => do
        let res ← rpcArgObjEntries inner
        some ("\x7b" ++ res ++ ",...\x7d")
    | RPCArgType.ARR => do
        let res ← rpcArgArrEntries inner
        some ("[" ++ res ++ "...]")

/-- Embeds `RPCArg::ToStringObj` (util.cpp lines 167-195): `"name":` followed
by a fixed literal per scalar type, a recursive array for ARR, and the
`assert(false)` abort (`none`) for OBJ/OBJ_USER_KEYS. -/
def rpcArgToStringObj : RPCArg → Option String
  | RPCArg.mk name ty _ inner =>
    let res := "\"" ++ name ++ "\":"
    match ty with
    | RPCArgType.STR => some (res ++ "\"str\"")
    | RPCArgType.STR_HEX => some (res ++ "\"hex\"")
    | RPCArgType.NUM => some (res ++ "n")
    | RPCArgType.AMOUNT => some (res ++ "amount")
    | RPCArgType.BOOL => some (res ++ "bool")
    | RPCArgType.ARR => do
        let inner_s ← rpcArgArrEntries inner
        some (res ++ "[" ++ inner_s ++ "...]")
    | RPCArgType.OBJ => none
    | RPCArgType.OBJ_USER_KEYS => none

/-- The ARR joining loop of both render functions: each child's rendered
form followed by a comma. -/
def rpcArgArrEntries : List RPCArg → Option String
  | [] => some ""
  | a :: rest => do
      let s ← rpcArgToString a
      let r ← rpcArgArrEntries rest
      some (s ++ "," ++ r)

/-- The OBJ joining loop of `RPCArg::ToString`: children's `ToStringObj`
forms separated by commas. -/
def rpcArgObjEntries : List RPCArg → Option String
  | [] => some ""
  | [a] => rpcArgToStringObj a
  | a :: rest => do
      let s ← rpcArgToStringObj a
      let r ← rpcArgObjEntries rest
      some (s ++ "," ++ r)

end

/-- The `RPCHelpMan` record: command name and argument sequence. -/
structure RPCHelpMan where
  m_name : String
  m_args : List RPCArg

/-- The argument loop of `RPCHelpMan::ToString` (util.cpp lines 148-160),
with the running `is_optional` flag explicit: each argument is preceded by a
space, `"( "` is inserted before the first optional argument, a required
argument while the flag is set is the `assert(!is_optional)` abort, and the
loop reports the final flag so the caller can close the parenthesis. -/
def helpArgsLoop : List RPCArg → Bool → Except RpcAbort (String × Bool)
  | [], is_optional => Except.ok ("", is_optional)
  | a :: rest, is_optional =>
    if argOptional a then
      match rpcArgToString a with
      | none => Except.error RpcAbort.unsupportedObjEntry
      | some s =>
        match helpArgsLoop rest true with
        | Except.error e => Except.error e
        | Except.ok (tail, fin) =>
            Except.ok (" " ++ (if is_optional then "" else "( ") ++ s ++ tail, fin)
    else
      if is_optional then Except.error RpcAbort.orderingViolation
      else
        match rpcArgToString a with
        | none => Except.error RpcAbort.unsupportedObjEntry
        | some s =>
          match helpArgsLoop rest false with
          | Except.error e => Except.error e
          | Except.ok (tail, fin) => Except.ok (" " ++ s ++ tail, fin)

/-- Embeds `RPCHelpMan::ToString` (util.cpp lines 143-165): the command name,
the rendered argument list, `" )"` when an optional argument was seen, and a
trailing newline. -/
def RPCHelpMan.toStr (h : RPCHelpMan) : Except RpcAbort String :=
  match helpArgsLoop h.m_args false with
  | Except.error e => Except.error e
  | Except.ok (body, is_optional) =>
      Except.ok (h.m_name ++ body ++ (if is_optional then " )" else "") ++ "\n")

/-- The positional-then-optional ordering invariant on an argument sequence:
once an optional argument occurs, every later argument is optional. -/
def wellOrderedArgs : List RPCArg → Bool
  | [] => true
  | a :: rest => if argOptional a then rest.all argOptional else wellOrderedArgs rest

/-- Modelled from the spec: an asset identifier (`CAsset`, a 256-bit id),
represented by a natural number; the null/unknown sentinel is 0. -/
abbrev CAsset : Type := Nat

/-- The `CAsset::IsNull` test: the all-zero sentinel. -/
def assetIsNull (a : CAsset) : Bool := a == 0

/-- Modelled from the spec: the asset's canonical hex identifier
(`CAsset::GetHex`), the hex digits of its numeric id. -/
def assetGetHex (a : CAsset) : String := String.mk (Nat.toDigits 16 a)

/-- The process-wide read-only configuration consulted by `AmountMapToUniv`,
made an explicit parameter: the `g_con_elementsmode` flag, the
`::policyAsset` constant, the registry lookup `gAssetsDir.GetLabel`
(returning `""` when unregistered), and the external `GetAssetFromString`
name resolution. -/
structure ElementsConfig where
  elementsMode : Bool
  policyAsset : CAsset
  getLabel : CAsset → String
  getAssetFromString : String → CAsset

/-- The `balance[p] += 0` forcing step on a `std::map` held as a list sorted
by key: insert `(p, 0)` at its position when `p` is absent, leave the
existing entry unchanged otherwise. -/
def mapAddZero (p : CAsset) : List (CAsset × Int) → List (CAsset × Int)
  | [] => [(p, 0)]
  | (k, v) :: rest =>
      if p < k then (p, 0) :: (k, v) :: rest
      else if p = k then (k, v) :: rest
      else (k, v) :: mapAddZero p rest

/-- Reading `balance[k]` without inserting: the stored amount, or the
default-constructed `CAmount` 0 when absent. -/
def mapFind (m : List (CAsset × Int)) (k : CAsset) : Int :=
  match m with
  | [] => 0
  | (a, v) :: rest => if a = k then v else mapFind rest k

/-- Modelled from the spec: the external JSON amount formatting
(`ValueFromAmount`), represented by the numeric amount itself. -/
def ValueFromAmount (a : Int) : UniValue := UniValue.vnum a

/-- The label chosen for an asset in multi-asset output: the registry's
lookup result when registered, else the canonical hex identifier
(util.cpp lines 396-399). -/
def labelOfAsset (cfg : ElementsConfig) (a : CAsset) : String :=
  if cfg.getLabel a = "" then assetGetHex a else cfg.getLabel a

/-- The enumeration loop of `AmountMapToUniv` (util.cpp lines 391-401): one
label/amount pair per entry, skipping the null/unknown sentinel. -/
def balanceEntries (cfg : ElementsConfig) : List (CAsset × Int) → List (String × UniValue)
  | [] => []
  | (a, v) :: rest =>
      if assetIsNull a then balanceEntries cfg rest
      else (labelOfAsset cfg a, ValueFromAmount v) :: balanceEntries cfg rest

/-- Embeds `AmountMapToUniv` (util.cpp lines 375-403): force the policy
asset present, then either a single amount (multi-asset mode disabled, or a
non-empty filter) — for the filter-named asset in elements mode, else for
the policy asset — or the label/amount object over all non-null assets. -/
def AmountMapToUniv (cfg : ElementsConfig) (balanceOrig : List (CAsset × Int))
    (strasset : String) : UniValue :=
  let balance := mapAddZero cfg.policyAsset balanceOrig
  if cfg.elementsMode = false ∨ strasset ≠ "" then
    if cfg.elementsMode = true then
      ValueFromAmount (mapFind balance (cfg.getAssetFromString strasset))
    else
      ValueFromAmount (mapFind balance cfg.policyAsset)
  else
    UniValue.vobj (balanceEntries cfg balance)

/-- C5: for every destination, `DescribeAddress` returns exactly the fields
of the dispatch table — empty object for `CNoDestination`;
`isscript=false, iswitness=false` for `PKHash`; `isscript=true,
iswitness=false` for `ScriptHash`; `isscript=false, iswitness=true,
witness_version=0, witness_program=hex(hash)` for `WitnessV0KeyHash`;
`isscript=true, iswitness=true, witness_version=0,
witness_program=hex(hash)` for `WitnessV0ScriptHash`; `iswitness=true,
witness_version=v, witness_program=hex(P)` and no `isscript` field for
`WitnessUnknown`; `isscript=false, iswitness=false` for `NullData`. -/
theorem describeAddress_table :
    ∀ (h1 h2 h3 h4 p : List Nat) (b1 b2 b3 b4 b5 : CPubKey) (v : Nat),
    DescribeAddress Destination.noDest = UniValue.vobj [] ∧
    DescribeAddress (Destination.pkHash h1 b1) =
      UniValue.vobj [("isscript", UniValue.vbool false), ("iswitness", UniValue.vbool false)] ∧
    DescribeAddress (Destination.scriptHash h2 b2) =
      UniValue.vobj [("isscript", UniValue.vbool true), ("iswitness", UniValue.vbool false)] ∧
    DescribeAddress (Destination.witnessV0KeyHash h3 b3) =
      UniValue.vobj [("isscript", UniValue.vbool false), ("iswitness", UniValue.vbool true),
        ("witness_version", UniValue.vnum 0), ("witness_program", UniValue.vstr (HexStr h3))] ∧
    DescribeAddress (Destination.witnessV0ScriptHash h4 b4) =
      UniValue.vobj [("isscript", UniValue.vbool true), ("iswitness", UniValue.vbool true),
        ("witness_version", UniValue.vnum 0), ("witness_program", UniValue.vstr (HexStr h4))] ∧
    DescribeAddress (Destination.witnessUnknown v p b5) =
      UniValue.vobj [("iswitness", UniValue.vbool true),
        ("witness_version", UniValue.vnum (Int.ofNat v)), ("witness_program", UniValue.vstr (HexStr p))] ∧
    DescribeAddress Destination.nullData =
      UniValue.vobj [("isscript", UniValue.vbool false), ("iswitness", UniValue.vbool false)] := by
  intro h1 h2 h3 h4 p b1 b2 b3 b4 b5 v
  exact ⟨rfl, rfl, rfl, rfl, rfl, rfl, rfl⟩

/-- C4: `DescribeBlindAddress` returns an empty object for `CNoDestination`
and for every `WitnessUnknown` destination, and the null value (not an
object) for `NullData`. -/
theorem describeBlind_nonblind :
    ∀ (v : Nat) (p : List Nat) (bp : CPubKey),
    DescribeBlindAddress Destination.noDest = UniValue.vobj [] ∧
    DescribeBlindAddress (Destination.witnessUnknown v p bp) = UniValue.vobj [] ∧
    DescribeBlindAddress Destination.nullData = UniValue.vnull := by
  intro v p bp
  exact ⟨rfl, rfl, rfl⟩

/-- C3 counterexample: a `WitnessUnknown` destination whose stored blinding
key is non-empty; `GetDestinationBlindingKey` returns that stored key (the
source reads `id.blinding_pubkey` on `WitnessUnknown`), not the canonical
empty key the claim requires for every `WitnessUnknown` destination. -/
theorem getBlindingKey_witnessUnknown_ce :
    GetDestinationBlindingKey (Destination.witnessUnknown 1 [0] (CPubKey.mk [2])) =
      CPubKey.mk [2] ∧
    GetDestinationBlindingKey (Destination.witnessUnknown 1 [0] (CPubKey.mk [2])) ≠ emptyPubKey := by
  exact ⟨rfl, by decide⟩

/-- C3 (amended): `GetDestinationBlindingKey` returns the destination's
stored blinding key for every variant that carries the field — `PKHash`,
`ScriptHash`, `WitnessV0KeyHash`, `WitnessV0ScriptHash`, and also
`WitnessUnknown` — and the canonical empty/invalid key for
`CNoDestination` and `NullData`. -/
theorem getBlindingKey_cases :
    ∀ (h1 h2 h3 h4 p : List Nat) (b1 b2 b3 b4 b5 : CPubKey) (v : Nat),
    GetDestinationBlindingKey (Destination.pkHash h1 b1) = b1 ∧
    GetDestinationBlindingKey (Destination.scriptHash h2 b2) = b2 ∧
    GetDestinationBlindingKey (Destination.witnessV0KeyHash h3 b3) = b3 ∧
    GetDestinationBlindingKey (Destination.witnessV0ScriptHash h4 b4) = b4 ∧
    GetDestinationBlindingKey (Destination.witnessUnknown v p b5) = b5 ∧
    GetDestinationBlindingKey Destination.noDest = emptyPubKey ∧
    GetDestinationBlindingKey Destination.nullData = emptyPubKey := by
  intro h1 h2 h3 h4 p b1 b2 b3 b4 b5 v
  exact ⟨rfl, rfl, rfl, rfl, rfl, rfl, rfl⟩

/-- C1: for every blinding-capable destination `d` (PKHash, ScriptHash,
WitnessV0KeyHash, WitnessV0ScriptHash): if `d`'s blinding key is fully
valid, `DescribeBlindAddress d` has `confidential_key` equal to the hex of
that key and `unconfidential` equal to the encoding of `d` with the
blinding key cleared, and decoding that string gives back `d` with the key
cleared; otherwise `confidential_key` is `""` and `unconfidential` is the
unchanged encoding of `d`. -/
theorem describeBlind_capable (d : Destination) (hcap : blindingCapable d = true) :
    (IsBlindDestination d = true →
      DescribeBlindAddress d = UniValue.vobj
        [("confidential_key", UniValue.vstr (HexStr (GetDestinationBlindingKey d).bytes)),
         ("unconfidential", UniValue.vaddr (EncodeDestination (clearBlindingKey d)))] ∧
      DecodeDestination (EncodeDestination (clearBlindingKey d)) = clearBlindingKey d ∧
      GetDestinationBlindingKey (clearBlindingKey d) = emptyPubKey) ∧
    (IsBlindDestination d = false →
      DescribeBlindAddress d = UniValue.vobj
        [("confidential_key", UniValue.vstr ""),
         ("unconfidential", UniValue.vaddr (EncodeDestination d))]) := by
  cases d with
  | noDest => simp [blindingCapable] at hcap
  | nullData => simp [blindingCapable] at hcap
  | witnessUnknown v p bp => simp [blindingCapable] at hcap
  | pkHash h bp =>
      constructor
      · intro hb
        refine ⟨?_, rfl, rfl⟩
        simp [DescribeBlindAddress, hb, clearBlindingKey, GetDestinationBlindingKey]
      · intro hb
        simp [DescribeBlindAddress, hb]
  | scriptHash h bp =>
      constructor
      · intro hb
        refine ⟨?_, rfl, rfl⟩
        simp [DescribeBlindAddress, hb, clearBlindingKey, GetDestinationBlindingKey]
      · intro hb
        simp [DescribeBlindAddress, hb]
  | witnessV0KeyHash h bp =>
      constructor
      · intro hb
        refine ⟨?_, rfl, rfl⟩
        simp [DescribeBlindAddress, hb, clearBlindingKey, GetDestinationBlindingKey]
      · intro hb
        simp [DescribeBlindAddress, hb]
  | witnessV0ScriptHash h bp =>
      constructor
      · intro hb
        refine ⟨?_, rfl, rfl⟩
        simp [DescribeBlindAddress, hb, clearBlindingKey, GetDestinationBlindingKey]
      · intro hb
        simp [DescribeBlindAddress, hb]

/-- Witness for C1: a `PKHash` destination with a fully valid 33-byte
blinding key, evaluated through `describeBlind_capable`. -/
theorem describeBlind_capable_w :
    DescribeBlindAddress (Destination.pkHash [7] (CPubKey.mk (2 :: List.replicate 32 0))) =
      UniValue.vobj
        [("confidential_key", UniValue.vstr (HexStr (2 :: List.replicate 32 0))),
         ("unconfidential", UniValue.vaddr (EncodeDestination (Destination.pkHash [7] emptyPubKey)))] ∧
    DecodeDestination (EncodeDestination (Destination.pkHash [7] emptyPubKey)) =
      Destination.pkHash [7] emptyPubKey := by
  have h := (describeBlind_capable
    (Destination.pkHash [7] (CPubKey.mk (2 :: List.replicate 32 0))) (by decide)).1 (by decide)
  exact ⟨h.1, h.2.1⟩

/-- C2: `CreateMultisigRedeemscript` validates in order with the first
failure winning, every failure an `RPC_INVALID_PARAMETER` error and no
partial result: threshold below 1 fails; fewer keys than the threshold
fails with a message containing both counts; more than 16 keys fails; a
built script longer than `MAX_SCRIPT_ELEMENT_SIZE` fails with a message
containing both sizes; otherwise the built script is returned. Stated for
every script encoder `enc`. -/
theorem createMultisig_spec (enc : Int → List CPubKey → List Nat)
    (required : Int) (pubkeys : List CPubKey) :
    (required < 1 → CreateMultisigRedeemscript enc required pubkeys =
        Except.error (RpcError.mk RpcErrorKind.invalidParameter
          "a multisignature address must require at least one key to redeem")) ∧
    (1 ≤ required → (pubkeys.length : Int) < required →
        ∃ msg, CreateMultisigRedeemscript enc required pubkeys =
            Except.error (RpcError.mk RpcErrorKind.invalidParameter msg) ∧
          (∃ l r, msg.data = l ++ (toString pubkeys.length).data ++ r) ∧
          (∃ l r, msg.data = l ++ (toString required).data ++ r)) ∧
    (1 ≤ required → required ≤ (pubkeys.length : Int) → 16 < pubkeys.length →
        CreateMultisigRedeemscript enc required pubkeys =
          Except.error (RpcError.mk RpcErrorKind.invalidParameter
            "Number of keys involved in the multisignature address creation > 16\nReduce the number")) ∧
    (1 ≤ required → required ≤ (pubkeys.length : Int) → pubkeys.length ≤ 16 →
        MAX_SCRIPT_ELEMENT_SIZE < (enc required pubkeys).length →
        ∃ msg, CreateMultisigRedeemscript enc required pubkeys =
            Except.error (RpcError.mk RpcErrorKind.invalidParameter msg) ∧
          (∃ l r, msg.data = l ++ (toString (enc required pubkeys).length).data ++ r) ∧
          (∃ l r, msg.data = l ++ (toString MAX_SCRIPT_ELEMENT_SIZE).data ++ r)) ∧
    (1 ≤ required → required ≤ (pubkeys.length : Int) → pubkeys.length ≤ 16 →
        (enc required pubkeys).length ≤ MAX_SCRIPT_ELEMENT_SIZE →
        CreateMultisigRedeemscript enc required pubkeys = Except.ok (enc required pubkeys)) := by
  refine ⟨?_, ?_, ?_, ?_, ?_⟩
  · intro h1
    simp only [CreateMultisigRedeemscript, if_pos h1]
  · intro h1 h2
    have c1 : ¬(required < 1) := by omega
    simp only [CreateMultisigRedeemscript, if_neg c1, if_pos h2]
    refine ⟨_, rfl,
      ⟨("not enough keys supplied (got ").data,
        (" keys, but need at least " ++ toString required ++ " to redeem)").data, ?_⟩,
      ⟨("not enough keys supplied (got " ++ toString pubkeys.length ++
          " keys, but need at least ").data, (" to redeem)").data, ?_⟩⟩ <;>
      simp [String.data_append]
  · intro h1 h2 h3
    have c1 : ¬(required < 1) := by omega
    have c2 : ¬((pubkeys.length : Int) < required) := by omega
    simp only [CreateMultisigRedeemscript, if_neg c1, if_neg c2, gt_iff_lt, if_pos h3]
  · intro h1 h2 h3 h4
    have c1 : ¬(required < 1) := by omega
    have c2 : ¬((pubkeys.length : Int) < required) := by omega
    have c3 : ¬(16 < pubkeys.length) := by omega
    simp only [CreateMultisigRedeemscript, if_neg c1, if_neg c2, gt_iff_lt, if_neg c3, if_pos h4]
    refine ⟨_, rfl,
      ⟨("redeemScript exceeds size limit: ").data,
        (" > " ++ toString MAX_SCRIPT_ELEMENT_SIZE).data, ?_⟩,
      ⟨("redeemScript exceeds size limit: " ++ toString (enc required pubkeys).length ++
          " > ").data, ([] : List Char), ?_⟩⟩ <;>
      simp [String.data_append]
  · intro h1 h2 h3 h4
    have c1 : ¬(required < 1) := by omega
    have c2 : ¬((pubkeys.length : Int) < required) := by omega
    have c3 : ¬(16 < pubkeys.length) := by omega
    have c4 : ¬(MAX_SCRIPT_ELEMENT_SIZE < (enc required pubkeys).length) := by omega
    simp only [CreateMultisigRedeemscript, if_neg c1, if_neg c2, gt_iff_lt, if_neg c3, if_neg c4]

/-- Witness for C2: two keys required but one supplied — the failure is an
`InvalidParameter` error whose message cites the count 1 and the
threshold 2, obtained through `createMultisig_spec`. -/
theorem createMultisig_spec_w :
    ∃ msg, CreateMultisigRedeemscript (fun _ _ => []) 2 [CPubKey.mk [2]] =
        Except.error (RpcError.mk RpcErrorKind.invalidParameter msg) ∧
      (∃ l r, msg.data = l ++ (toString (1 : Nat)).data ++ r) ∧
      (∃ l r, msg.data = l ++ (toString (2 : Int)).data ++ r) := by
  exact (createMultisig_spec (fun _ _ => []) 2 [CPubKey.mk [2]]).2.1 (by decide) (by decide)

/-- Concatenation of a list of strings, used to state the rendered form of
an argument list. -/
def strConcat : List String → String
  | [] => ""
  | s :: rest => s ++ strConcat rest

/-- The rendered forms of a list of arguments, `none` as soon as one
argument's rendering aborts. -/
def renderAll : List RPCArg → Option (List String)
  | [] => some []
  | a :: rest => do
      let s ← rpcArgToString a
      let r ← renderAll rest
      some (s :: r)

/-- The ordering `assert` can only fire out of the argument loop itself:
when the flag state is consistent with the remaining arguments (all
remaining optional once the flag is set, well-ordered otherwise), the loop
never reports `orderingViolation`. -/
theorem helpArgsLoop_no_ordering (args : List RPCArg) :
    ∀ flag : Bool, (flag = true → args.all argOptional = true) →
    (flag = false → wellOrderedArgs args = true) →
    helpArgsLoop args flag ≠ Except.error RpcAbort.orderingViolation := by
  induction args with
  | nil => intro flag _ _; simp [helpArgsLoop]
  | cons a rest ih =>
    intro flag ht hf
    cases hopt : argOptional a with
    | true =>
      have hrest : rest.all argOptional = true := by
        cases flag with
        | true =>
          have h := ht rfl
          simp only [List.all_cons, Bool.and_eq_true] at h
          exact h.2
        | false =>
          have h := hf rfl
          rw [wellOrderedArgs, hopt, if_pos rfl] at h
          exact h
      simp only [helpArgsLoop, hopt, if_true]
      cases hrender : rpcArgToString a with
      | none => simp
      | some s =>
        cases hloop : helpArgsLoop rest true with
        | error e =>
          have hne := ih true (fun _ => hrest) (by simp)
          rw [hloop] at hne
          simpa using hne
        | ok p => simp
    | false =>
      cases flag with
      | true =>
        have h := ht rfl
        simp only [List.all_cons, Bool.and_eq_true] at h
        rw [hopt] at h
        exact absurd h.1 (by simp)
      | false =>
        have hwo : wellOrderedArgs rest = true := by
          have h := hf rfl
          rw [wellOrderedArgs, hopt] at h
          simpa using h
        simp only [helpArgsLoop, hopt, Bool.false_eq_true, if_false]
        cases hrender : rpcArgToString a with
        | none => simp
        | some s =>
          cases hloop : helpArgsLoop rest false with
          | error e =>
            have hne := ih false (by simp) (fun _ => hwo)
            rw [hloop] at hne
            simpa using hne
          | ok p => simp

/-- C8: an `RPCHelpMan` whose argument sequence puts a required argument
after an optional one aborts help rendering with the ordering
programming-contract violation (the `assert(!is_optional)` of
`RPCHelpMan::ToString`), and for every argument sequence respecting the
positional-then-optional ordering that abort is never reached. -/
theorem helpman_ordering (n : String) (args : List RPCArg) :
    ((RPCHelpMan.mk n [RPCArg.mk "a" RPCArgType.STR true [],
        RPCArg.mk "b" RPCArgType.STR false []]).toStr =
      Except.error RpcAbort.orderingViolation) ∧
    (wellOrderedArgs args = true →
      (RPCHelpMan.mk n args).toStr ≠ Except.error RpcAbort.orderingViolation) := by
  constructor
  · rfl
  · intro hw
    have h := helpArgsLoop_no_ordering args false (by simp) (fun _ => hw)
    unfold RPCHelpMan.toStr
    cases hloop : helpArgsLoop args false with
    | error e =>
      rw [hloop] at h
      simpa using h
    | ok p => simp

/-- Witness for C8: a single required argument is well ordered and renders
without the ordering abort, through `helpman_ordering`. -/
theorem helpman_ordering_w :
    (RPCHelpMan.mk "name" [RPCArg.mk "a" RPCArgType.STR false []]).toStr ≠
      Except.error RpcAbort.orderingViolation :=
  (helpman_ordering "name" [RPCArg.mk "a" RPCArgType.STR false []]).2 (by decide)

/-- Once the optional flag is set, the loop renders each remaining optional
argument preceded by a single space and keeps the flag set. -/
theorem helpArgsLoop_optional (opt : List RPCArg) :
    ∀ os : List String, (∀ a ∈ opt, argOptional a = true) →
    renderAll opt = some os →
    helpArgsLoop opt true = Except.ok (strConcat (os.map (fun s => " " ++ s)), true) := by
  induction opt with
  | nil =>
    intro os _ hm
    simp only [renderAll, Option.some.injEq] at hm
    subst hm
    simp [helpArgsLoop, strConcat]
  | cons a rest ih =>
    intro os h hm
    cases hfa : rpcArgToString a with
    | none => simp [renderAll, hfa] at hm
    | some s =>
      cases hrest : renderAll rest with
      | none => simp [renderAll, hfa, hrest] at hm
      | some os' =>
        have hos : os = s :: os' := by
          simp [renderAll, hfa, hrest] at hm
          exact hm.symm
        subst hos
        have ha : argOptional a = true := h a (List.mem_cons_self a rest)
        have harest : ∀ x ∈ rest, argOptional x = true :=
          fun x hx => h x (List.mem_cons_of_mem a hx)
        simp only [helpArgsLoop, ha, if_true, hfa]
        rw [ih os' harest hrest]
        simp [strConcat, String.append_assoc]

/-- Reaching the first optional argument with the flag still clear opens the
parenthesis group: `" ( "` before it, then the remaining optional suffix. -/
theorem helpArgsLoop_first_optional (opt : List RPCArg) (o : String) (os : List String)
    (h : ∀ a ∈ opt, argOptional a = true)
    (hm : renderAll opt = some (o :: os)) :
    helpArgsLoop opt false =
      Except.ok (" ( " ++ o ++ strConcat (os.map (fun s => " " ++ s)), true) := by
  cases opt with
  | nil => simp [renderAll] at hm
  | cons a rest =>
    cases hfa : rpcArgToString a with
    | none => simp [renderAll, hfa] at hm
    | some s =>
      cases hrest : renderAll rest with
      | none => simp [renderAll, hfa, hrest] at hm
      | some os' =>
        have hos : s = o ∧ os' = os := by
          simp [renderAll, hfa, hrest] at hm
          exact hm
        have ha : argOptional a = true := h a (List.mem_cons_self a rest)
        have harest : ∀ x ∈ rest, argOptional x = true :=
          fun x hx => h x (List.mem_cons_of_mem a hx)
        rw [hos.1] at hfa
        rw [hos.2] at hrest
        simp only [helpArgsLoop, ha, if_true, hfa]
        rw [helpArgsLoop_optional rest os harest hrest]
        have hparen : (" " : String) ++ "( " = " ( " := rfl
        simp [Bool.false_eq_true, if_false, String.append_assoc, hparen]

/-- The required positional segment renders as space-separated forms, after
which the optional suffix opens its parenthesis group exactly once. -/
theorem helpArgsLoop_req (req : List RPCArg) (opt : List RPCArg) (o : String) (os : List String)
    (hopt : ∀ a ∈ opt, argOptional a = true)
    (hmo : renderAll opt = some (o :: os)) :
    ∀ rs : List String, (∀ a ∈ req, argOptional a = false) →
    renderAll req = some rs →
    helpArgsLoop (req ++ opt) false =
      Except.ok (strConcat (rs.map (fun s => " " ++ s)) ++ " ( " ++ o ++
        strConcat (os.map (fun s => " " ++ s)), true) := by
  induction req with
  | nil =>
    intro rs _ hr
    simp only [renderAll, Option.some.injEq] at hr
    subst hr
    simp only [List.nil_append, helpArgsLoop_first_optional opt o os hopt hmo]
    simp [strConcat, String.empty_append, String.append_assoc]
  | cons a rest ih =>
    intro rs h hr
    cases hfa : rpcArgToString a with
    | none => simp [renderAll, hfa] at hr
    | some s =>
      cases hrest : renderAll rest with
      | none => simp [renderAll, hfa, hrest] at hr
      | some rs' =>
        have hos : rs = s :: rs' := by
          simp [renderAll, hfa, hrest] at hr
          exact hr.symm
        subst hos
        have ha : argOptional a = false := h a (List.mem_cons_self a rest)
        have harest : ∀ x ∈ rest, argOptional x = false :=
          fun x hx => h x (List.mem_cons_of_mem a hx)
        simp only [List.cons_append, helpArgsLoop, ha, Bool.false_eq_true, if_false, hfa,
          List.append_eq]
        rw [ih rs' harest hrest]
        simp [strConcat, String.append_assoc]

/-- C9: rendering the help line for the list `[txid required, amount
optional]` under command name `name` yields exactly `"name txid ( amount )\n"`,
and in general, for every well-ordered argument list written as a required
segment followed by a non-empty optional segment, the parentheses are
emitted exactly once around the optional suffix, with a trailing newline. -/
theorem helpman_render :
    ((RPCHelpMan.mk "name" [RPCArg.mk "txid" RPCArgType.NUM false [],
        RPCArg.mk "amount" RPCArgType.AMOUNT true []]).toStr =
      Except.ok "name txid ( amount )\n") ∧
    (∀ (n : String) (req opt : List RPCArg) (rs : List String) (o : String) (os : List String),
      (∀ a ∈ req, argOptional a = false) →
      (∀ a ∈ opt, argOptional a = true) →
      renderAll req = some rs →
      renderAll opt = some (o :: os) →
      (RPCHelpMan.mk n (req ++ opt)).toStr =
        Except.ok (n ++ strConcat (rs.map (fun s => " " ++ s)) ++ " ( " ++ o ++
          strConcat (os.map (fun s => " " ++ s)) ++ " )" ++ "\n")) := by
  constructor
  · rfl
  · intro n req opt rs o os hreq hopt hr hmo
    unfold RPCHelpMan.toStr
    simp only [helpArgsLoop_req req opt o os hopt hmo rs hreq hr]
    simp [String.append_assoc]

/-- Witness for C9: one optional argument and no required one, rendered
through `helpman_render`. -/
theorem helpman_render_w :
    (RPCHelpMan.mk "h" [RPCArg.mk "x" RPCArgType.NUM true []]).toStr = Except.ok "h ( x )\n" := by
  have h := helpman_render.2 "h" [] [RPCArg.mk "x" RPCArgType.NUM true []] [] "x" []
    (by decide) (by decide) rfl rfl
  exact h

/-- Lookup of an absent key defaults to 0. -/
theorem mapFind_eq_zero (k : CAsset) (m : List (CAsset × Int))
    (h : ∀ e ∈ m, e.1 ≠ k) : mapFind m k = 0 := by
  induction m with
  | nil => rfl
  | cons e rest ih =>
    obtain ⟨a, v⟩ := e
    have ha : a ≠ k := h (a, v) (List.mem_cons_self _ _)
    simp only [mapFind, if_neg ha]
    exact ih (fun x hx => h x (List.mem_cons_of_mem _ hx))

/-- Forcing the policy entry present does not change any lookup on a map
whose keys are strictly sorted (the `std::map` representation invariant). -/
theorem mapFind_addZero (p k : CAsset) (m : List (CAsset × Int))
    (hs : List.Pairwise (fun x y => x.1 < y.1) m) :
    mapFind (mapAddZero p m) k = mapFind m k := by
  induction m with
  | nil => simp [mapAddZero, mapFind]
  | cons e rest ih =>
    obtain ⟨a, v⟩ := e
    rw [List.pairwise_cons] at hs
    have hs1 : ∀ e ∈ rest, a < e.1 := hs.1
    rcases lt_trichotomy p a with hpa | hpa | hpa
    · simp only [mapAddZero, if_pos hpa]
      by_cases hk : p = k
      · subst hk
        have h1 : a ≠ p := Ne.symm (Nat.ne_of_lt hpa)
        simp only [mapFind, if_pos rfl, if_neg h1]
        refine (mapFind_eq_zero p rest (fun e he => ?_)).symm
        exact Ne.symm (Nat.ne_of_lt (Nat.lt_trans hpa (hs1 e he)))
      · simp only [mapFind, if_neg hk]
    · subst hpa
      simp [mapAddZero]
    · have h1 : ¬p < a := Nat.lt_asymm hpa
      have h2 : ¬p = a := Ne.symm (Nat.ne_of_lt hpa)
      simp only [mapAddZero, if_neg h1, if_neg h2]
      simp only [mapFind]
      rw [ih hs.2]

/-- When the key has no entry at all, the forced map still reads 0 for it. -/
theorem mapFind_addZero_absent (p k : CAsset) (m : List (CAsset × Int))
    (h : ∀ e ∈ m, e.1 ≠ k) : mapFind (mapAddZero p m) k = 0 := by
  induction m with
  | nil => simp [mapAddZero, mapFind]
  | cons e rest ih =>
    obtain ⟨a, v⟩ := e
    have ha : a ≠ k := h (a, v) (List.mem_cons_self _ _)
    have hrest : ∀ e ∈ rest, e.1 ≠ k := fun e he => h e (List.mem_cons_of_mem _ he)
    simp only [mapAddZero]
    by_cases h1 : p < a
    · rw [if_pos h1]
      by_cases h2 : p = k
      · simp only [mapFind, if_pos h2]
      · simp only [mapFind, if_neg h2, if_neg ha]
        exact mapFind_eq_zero k rest hrest
    · rw [if_neg h1]
      by_cases h2 : p = a
      · rw [if_pos h2]
        simp only [mapFind, if_neg ha]
        exact mapFind_eq_zero k rest hrest
      · rw [if_neg h2]
        simp only [mapFind, if_neg ha]
        exact ih hrest

/-- Forcing the policy entry never drops an existing entry. -/
theorem mem_mapAddZero_of_mem (p : CAsset) (m : List (CAsset × Int)) (e : CAsset × Int)
    (h : e ∈ m) : e ∈ mapAddZero p m := by
  induction m with
  | nil => simp at h
  | cons f rest ih =>
    obtain ⟨a, v⟩ := f
    simp only [mapAddZero]
    by_cases h1 : p < a
    · rw [if_pos h1]; exact List.mem_cons_of_mem _ h
    · rw [if_neg h1]
      by_cases h2 : p = a
      · rw [if_pos h2]; exact h
      · rw [if_neg h2]
        rcases List.mem_cons.mp h with h3 | h3
        · exact List.mem_cons.mpr (Or.inl h3)
        · exact List.mem_cons.mpr (Or.inr (ih h3))

/-- Forcing the policy entry adds at most the zero policy entry. -/
theorem mem_of_mem_mapAddZero (p : CAsset) (m : List (CAsset × Int)) (e : CAsset × Int)
    (h : e ∈ mapAddZero p m) : e ∈ m ∨ e = (p, 0) := by
  induction m with
  | nil =>
    simp only [mapAddZero, List.mem_singleton] at h
    exact Or.inr h
  | cons f rest ih =>
    obtain ⟨a, v⟩ := f
    simp only [mapAddZero] at h
    by_cases h1 : p < a
    · rw [if_pos h1] at h
      rcases List.mem_cons.mp h with h2 | h2
      · exact Or.inr h2
      · exact Or.inl h2
    · rw [if_neg h1] at h
      by_cases h2 : p = a
      · rw [if_pos h2] at h; exact Or.inl h
      · rw [if_neg h2] at h
        rcases List.mem_cons.mp h with h3 | h3
        · exact Or.inl (List.mem_cons.mpr (Or.inl h3))
        · rcases ih h3 with h4 | h4
          · exact Or.inl (List.mem_cons_of_mem _ h4)
          · exact Or.inr h4

/-- The forced map always contains a policy entry, with amount 0 when the
input map had none. -/
theorem policy_mem_mapAddZero (p : CAsset) (m : List (CAsset × Int)) :
    ∃ v, (p, v) ∈ mapAddZero p m ∧ ((∀ e ∈ m, e.1 ≠ p) → v = 0) := by
  induction m with
  | nil => exact ⟨0, by simp [mapAddZero], fun _ => rfl⟩
  | cons f rest ih =>
    obtain ⟨a, v⟩ := f
    by_cases h1 : p < a
    · refine ⟨0, ?_, fun _ => rfl⟩
      simp only [mapAddZero, if_pos h1]
      exact List.mem_cons_self _ _
    · by_cases h2 : p = a
      · refine ⟨v, ?_, ?_⟩
        · simp only [mapAddZero, if_neg h1, if_pos h2]
          rw [h2]
          exact List.mem_cons_self _ _
        · intro habs
          exact absurd h2 (habs (a, v) (List.mem_cons_self _ _)).symm.elim
      · obtain ⟨w, hw, hw0⟩ := ih
        refine ⟨w, ?_, ?_⟩
        · simp only [mapAddZero, if_neg h1, if_neg h2]
          exact List.mem_cons_of_mem _ hw
        · intro habs
          exact hw0 (fun e he => habs e (List.mem_cons_of_mem _ he))

/-- The enumeration loop is exactly filter-out-null then label each entry. -/
theorem balanceEntries_eq (cfg : ElementsConfig) (l : List (CAsset × Int)) :
    balanceEntries cfg l =
      (l.filter (fun x => !assetIsNull x.1)).map
        (fun x => (labelOfAsset cfg x.1, ValueFromAmount x.2)) := by
  induction l with
  | nil => rfl
  | cons e rest ih =>
    obtain ⟨a, v⟩ := e
    cases h : assetIsNull a with
    | true => simp [balanceEntries, h, List.filter_cons, ih]
    | false => simp [balanceEntries, h, List.filter_cons, ih]

/-- Every non-null entry of the map appears, under its label, in the
enumeration output. -/
theorem mem_balanceEntries_of_mem (cfg : ElementsConfig) (l : List (CAsset × Int))
    (a : CAsset) (v : Int) (h : (a, v) ∈ l) (ha : assetIsNull a = false) :
    (labelOfAsset cfg a, ValueFromAmount v) ∈ balanceEntries cfg l := by
  rw [balanceEntries_eq]
  exact List.mem_map.mpr ⟨(a, v), List.mem_filter.mpr ⟨h, by simp [ha]⟩, rfl⟩

/-- Every output entry of the enumeration comes from a non-null map entry. -/
theorem mem_balanceEntries (cfg : ElementsConfig) (l : List (CAsset × Int))
    (s : String) (u : UniValue) (h : (s, u) ∈ balanceEntries cfg l) :
    ∃ a v, (a, v) ∈ l ∧ assetIsNull a = false ∧
      s = labelOfAsset cfg a ∧ u = ValueFromAmount v := by
  rw [balanceEntries_eq] at h
  obtain ⟨⟨a, v⟩, hmem, heq⟩ := List.mem_map.mp h
  obtain ⟨hl, hp⟩ := List.mem_filter.mp hmem
  refine ⟨a, v, hl, by simpa using hp, ?_, ?_⟩
  · exact congrArg Prod.fst heq.symm
  · exact congrArg Prod.snd heq.symm

/-- C6 counterexample: multi-asset mode disabled, non-empty filter `"A"`
resolving to asset 5 whose amount in the map is 7 — the function returns the
policy asset's amount 3, not the filter-named asset's amount 7 as the claim
requires for every non-empty filter. -/
theorem amountMapToUniv_filter_ce :
    AmountMapToUniv (ElementsConfig.mk false 1 (fun _ => "") (fun _ => 5)) [(1, 3), (5, 7)] "A" =
      ValueFromAmount (mapFind [(1, 3), (5, 7)] 1) ∧
    mapFind [(1, 3), (5, 7)]
      ((ElementsConfig.mk false 1 (fun _ => "") (fun _ => 5)).getAssetFromString "A") = 7 ∧
    AmountMapToUniv (ElementsConfig.mk false 1 (fun _ => "") (fun _ => 5)) [(1, 3), (5, 7)] "A" ≠
      ValueFromAmount 7 := by
  refine ⟨rfl, rfl, fun h => ?_⟩
  have h3 : UniValue.vnum 3 = UniValue.vnum 7 := h
  injection h3 with h4
  omega

/-- C6 (amended): whenever multi-asset mode is disabled or the filter is
non-empty, the result is a single numeric amount — the amount of the
filter-named asset when multi-asset mode is enabled, and the policy asset's
amount (regardless of the filter) when multi-asset mode is disabled; absent
entries read as 0, so `present({}, "")` in single-asset mode is the policy
amount 0. -/
theorem amountMapToUniv_single (cfg : ElementsConfig) (m : List (CAsset × Int)) (s : String)
    (hs : List.Pairwise (fun x y => x.1 < y.1) m)
    (h : cfg.elementsMode = false ∨ s ≠ "") :
    AmountMapToUniv cfg m s =
      ValueFromAmount (if cfg.elementsMode = true then mapFind m (cfg.getAssetFromString s)
        else mapFind m cfg.policyAsset) := by
  simp only [AmountMapToUniv]
  rw [if_pos h]
  by_cases hm : cfg.elementsMode = true
  · simp only [if_pos hm]
    rw [mapFind_addZero _ _ _ hs]
  · simp only [if_neg hm]
    rw [mapFind_addZero _ _ _ hs]

/-- Witness for C6 (amended): empty map and empty filter in single-asset
mode give the numeric policy amount 0, through `amountMapToUniv_single`. -/
theorem amountMapToUniv_single_w :
    AmountMapToUniv (ElementsConfig.mk false 1 (fun _ => "") (fun _ => 0)) [] "" =
      UniValue.vnum 0 := by
  have h := amountMapToUniv_single (ElementsConfig.mk false 1 (fun _ => "") (fun _ => 0)) [] ""
    List.Pairwise.nil (Or.inl rfl)
  exact h

/-- C7: in multi-asset mode with empty filter, the result is the object
whose entries are exactly the non-null entries of the policy-forced map,
labelled by the registry when registered and by the canonical hex id
otherwise; every non-null input entry appears, the policy asset is always
present (amount 0 when absent from the input), and nothing else appears. -/
theorem amountMapToUniv_multi (cfg : ElementsConfig) (m : List (CAsset × Int))
    (hmode : cfg.elementsMode = true) (hp : assetIsNull cfg.policyAsset = false) :
    AmountMapToUniv cfg m "" =
      UniValue.vobj (balanceEntries cfg (mapAddZero cfg.policyAsset m)) ∧
    balanceEntries cfg (mapAddZero cfg.policyAsset m) =
      ((mapAddZero cfg.policyAsset m).filter (fun x => !assetIsNull x.1)).map
        (fun x => (labelOfAsset cfg x.1, ValueFromAmount x.2)) ∧
    (∀ a v, (a, v) ∈ m → assetIsNull a = false →
      (labelOfAsset cfg a, ValueFromAmount v) ∈
        balanceEntries cfg (mapAddZero cfg.policyAsset m)) ∧
    (∃ w, (labelOfAsset cfg cfg.policyAsset, ValueFromAmount w) ∈
        balanceEntries cfg (mapAddZero cfg.policyAsset m) ∧
      ((∀ e ∈ m, e.1 ≠ cfg.policyAsset) → w = 0)) ∧
    (∀ s u, (s, u) ∈ balanceEntries cfg (mapAddZero cfg.policyAsset m) →
      ∃ a v, assetIsNull a = false ∧ s = labelOfAsset cfg a ∧ u = ValueFromAmount v ∧
        ((a, v) ∈ m ∨ (a = cfg.policyAsset ∧ v = 0))) := by
  refine ⟨?_, balanceEntries_eq cfg _, ?_, ?_, ?_⟩
  · simp [AmountMapToUniv, hmode]
  · intro a v hm0 ha
    exact mem_balanceEntries_of_mem cfg _ a v (mem_mapAddZero_of_mem _ _ _ hm0) ha
  · obtain ⟨w, hw, hw0⟩ := policy_mem_mapAddZero cfg.policyAsset m
    exact ⟨w, mem_balanceEntries_of_mem cfg _ _ w hw hp, hw0⟩
  · intro s u h
    obtain ⟨a, v, hmem, ha, hs, hu⟩ := mem_balanceEntries cfg _ s u h
    rcases mem_of_mem_mapAddZero cfg.policyAsset m (a, v) hmem with h1 | h1
    · exact ⟨a, v, ha, hs, hu, Or.inl h1⟩
    · refine ⟨a, v, ha, hs, hu, Or.inr ?_⟩
      exact Prod.mk.inj h1

/-- Configuration used by the C7 witness: multi-asset mode, policy asset 1,
asset 2 registered as `gold`. -/
def cfgMultiW : ElementsConfig :=
  ElementsConfig.mk true 1 (fun a => if a = 2 then "gold" else "") (fun _ => 0)

/-- Witness for C7: the map `{policy: 3, A: 5}` in multi-asset mode yields
the label object containing both the hex label of the policy asset and the
registered label of `A`, through `amountMapToUniv_multi`. -/
theorem amountMapToUniv_multi_w :
    AmountMapToUniv cfgMultiW [(1, 3), (2, 5)] "" =
      UniValue.vobj (balanceEntries cfgMultiW (mapAddZero 1 [(1, 3), (2, 5)])) ∧
    ("gold", UniValue.vnum 5) ∈ balanceEntries cfgMultiW (mapAddZero 1 [(1, 3), (2, 5)]) ∧
    ("1", UniValue.vnum 3) ∈ balanceEntries cfgMultiW (mapAddZero 1 [(1, 3), (2, 5)]) := by
  have h := amountMapToUniv_multi cfgMultiW [(1, 3), (2, 5)] rfl rfl
  refine ⟨h.1, ?_, ?_⟩
  · exact h.2.2.1 2 5 (by simp) rfl
  · exact h.2.2.1 1 3 (by simp) rfl

/-- C10: in multi-asset mode, a non-empty filter naming an asset with no
entry in the input map yields the numeric amount 0 rather than an error. -/
theorem amountMapToUniv_absent (cfg : ElementsConfig) (m : List (CAsset × Int)) (s : String)
    (hmode : cfg.elementsMode = true) (hne : s ≠ "")
    (habs : ∀ e ∈ m, e.1 ≠ cfg.getAssetFromString s) :
    AmountMapToUniv cfg m s = UniValue.vnum 0 := by
  simp only [AmountMapToUniv]
  rw [if_pos (Or.inr hne)]
  simp only [if_pos hmode]
  rw [mapFind_addZero_absent _ _ _ habs]
  rfl

/-- Witness for C10: filter resolving to asset 9, absent from the map
`{policy: 3}`, reads as 0 through `amountMapToUniv_absent`. -/
theorem amountMapToUniv_absent_w :
    AmountMapToUniv (ElementsConfig.mk true 1 (fun _ => "") (fun _ => 9)) [(1, 3)] "foo" =
      UniValue.vnum 0 :=
  amountMapToUniv_absent (ElementsConfig.mk true 1 (fun _ => "") (fun _ => 9)) [(1, 3)] "foo"
    rfl (by decide) (by decide)
